import Mathlib

/-!
Shallow embedding of the `lockbox.dev/tokens` refresh-token service.

The embedding covers the record model (`RefreshToken`, `RefreshTokenChange`,
`ApplyChange`, `IsEmpty`, `HasFilter`), the in-memory storer backed by
go-memdb (`storers/memory/memory.go`), the PostgreSQL storer
(`storers/postgres/test_helpers.go`, the current `Storer` implementation),
and the service kernel's `Validate` together with a model of the
`dgrijalva/jwt-go` v3.2.0 parsing pipeline it calls.

Go `time.Time` values are modelled as `Int` instants: the zero value is `0`
(`IsZero`), `Before` is `<` and `After` is `>`.  Go `nil`-able `*bool`
fields are `Option Bool`.  Errors are the sentinel values of the tokens
package.  Functions that mutate a store take the store state and return the
error result paired with the new state; a Go early `return err` inside a
write transaction aborts the transaction, so those paths return the state
unchanged.
-/

/-- Error sentinels of the tokens package (`token.go`): `ErrTokenNotFound`,
`ErrInvalidToken`, `ErrTokenAlreadyExists`, `ErrTokenRevoked`,
`ErrTokenUsed`, `ErrNoTokenChangeFilter`, plus `other` for any further
error a storage backend may surface. -/
inductive TokenErr where
  | tokenNotFound
  | invalidToken
  | tokenAlreadyExists
  | tokenRevoked
  | tokenUsed
  | noTokenChangeFilter
  | other (msg : String)
deriving DecidableEq, Repr

/-- The `RefreshToken` record of the current tokens package.  The field list
is the one the PostgreSQL storer round-trips in
`storers/postgres/token.go` (`fromPostgres`/`toPostgres`).  Defaults are
the Go zero values. -/
structure RefreshToken where
  ID : String := ""
  CreatedAt : Int := 0
  CreatedFrom : String := ""
  Scopes : List String := []
  ProfileID : String := ""
  ClientID : String := ""
  AccountID : String := ""
  Revoked : Bool := false
  Used : Bool := false
deriving DecidableEq, Repr

/-- The `RefreshTokenChange` patch: filter fields `ID`, `ProfileID`,
`ClientID`, `AccountID` and tri-state mutation fields `Revoked`, `Used`
(`nil` pointer = `none` = do not change).  Defaults are the Go zero
values. -/
structure RefreshTokenChange where
  ID : String := ""
  ProfileID : String := ""
  ClientID : String := ""
  AccountID : String := ""
  Revoked : Option Bool := none
  Used : Option Bool := none
deriving DecidableEq, Repr

/-- `RefreshTokenChange.IsEmpty` from the tokens package:
`r.Revoked == nil && r.Used == nil`. -/
def RefreshTokenChange.IsEmpty (r : RefreshTokenChange) : Bool :=
  r.Revoked == none && r.Used == none

/-- Modelled from the spec: the current `token.go` that defines `HasFilter`
is not under src (only its callers in `storers/memory/memory.go` and
`storers/postgres/test_helpers.go` are).  The spec describes a change as
unfiltered when every filter field is empty, and `HasFilter` as testing
that at least one of the filter fields `ID`, `ProfileID`, `ClientID`,
`AccountID` is set. -/
def RefreshTokenChange.HasFilter (r : RefreshTokenChange) : Bool :=
  r.ID != "" || r.ProfileID != "" || r.ClientID != "" || r.AccountID != ""

/-- `ApplyChange` from the tokens package: returns a copy of `t` with
`Revoked` and `Used` overwritten only where `change` specifies them. -/
def ApplyChange (t : RefreshToken) (change : RefreshTokenChange) : RefreshToken :=
  let result := t
  let result := match change.Revoked with
    | some v => { result with Revoked := v }
    | none => result
  let result := match change.Used with
    | some v => { result with Used := v }
    | none => result
  result

/-- The constant `NumTokenResults` of the tokens package: the cap on the
number of tokens a listing returns. -/
def NumTokenResults : Nat := 25

/-- Comparator of the listing sort: `a` precedes `b` when `a`'s `CreatedAt`
is the more recent (`sort.Slice` with `toks[i].CreatedAt.After(toks[j].CreatedAt)`
in memory.go, `ORDER BY created_at DESC` in the SQL query). -/
def createdAtGe (a b : RefreshToken) : Prop := b.CreatedAt ≤ a.CreatedAt

instance : DecidableRel createdAtGe := fun a b =>
  inferInstanceAs (Decidable (b.CreatedAt ≤ a.CreatedAt))

instance : IsTotal RefreshToken createdAtGe :=
  ⟨fun a b => le_total b.CreatedAt a.CreatedAt⟩

instance : IsTrans RefreshToken createdAtGe :=
  ⟨fun _ _ _ hab hbc => le_trans hbc hab⟩

/-- Model of the comparison sort used by both listings (`sort.Slice` /
`ORDER BY`): any sort consistent with the `CreatedAt`-descending
comparator; insertion sort fixes one such order. -/
def sortByCreatedAtDesc (l : List RefreshToken) : List RefreshToken :=
  List.insertionSort createdAtGe l

/-- The `before` restriction of the listings: a token is kept unless
`before` is non-zero and the token's `CreatedAt` is not before it
(`!before.IsZero() && !token.CreatedAt.Before(before)` skips). -/
def keepsBefore (before : Int) (t : RefreshToken) : Bool :=
  !(before != 0 && !(decide (t.CreatedAt < before)))

/-- The `since` restriction of the listings: a token is kept unless
`since` is non-zero and the token's `CreatedAt` is not after it
(`!since.IsZero() && !token.CreatedAt.After(since)` skips). -/
def keepsSince (since : Int) (t : RefreshToken) : Bool :=
  !(since != 0 && !(decide (since < t.CreatedAt)))

/-- ASCII lowercasing: Go's `strings.ToLower` as applied by the go-memdb
`Lowercase` indexes (record IDs are ASCII UUID strings; `Char.toLower`
lowers exactly the ASCII uppercase letters). -/
def strLower (s : String) : String := ⟨s.data.map Char.toLower⟩

namespace Memory

/-! The in-memory `Storer` of `storers/memory/memory.go`, backed by
go-memdb.  Every index of the token table is a `StringFieldIndex` with
`Lowercase: true`, so both the indexed field value and the lookup argument
are lowercased (`strings.ToLower`, modelled with `strLower`, which agrees
on ASCII).  The table of a `memdb.MemDB` is modelled as the list of
its tokens; the unique `id` index keeps at most one entry per lowercased
`ID`. -/

/-- State of the go-memdb token table. -/
abbrev DB := List RefreshToken

/-- Lookup `txn.First("token", "id", id)`: the first entry whose lowercased
`ID` equals the lowercased argument. -/
def firstById (db : DB) (id : String) : Option RefreshToken :=
  db.find? (fun t => strLower t.ID == strLower id)

/-- Write `txn.Insert("token", &tok)`: the unique lowercased `ID` index
replaces the entry carrying the same key if there is one, otherwise the
entry is added. -/
def insert (db : DB) (tok : RefreshToken) : DB :=
  if db.any (fun t => strLower t.ID == strLower tok.ID) then
    db.map (fun t => if strLower t.ID == strLower tok.ID then tok else t)
  else db ++ [tok]

/-- `Storer.GetToken` (memory.go lines 64-78). -/
def GetToken (db : DB) (id : String) : Except TokenErr RefreshToken :=
  match firstById db id with
  | none => .error .tokenNotFound
  | some t => .ok t

/-- `Storer.CreateToken` (memory.go lines 83-99): fails with
`ErrTokenAlreadyExists` when the `id` index already holds an entry for the
token's `ID`, otherwise inserts and commits. -/
def CreateToken (db : DB) (token : RefreshToken) : Option TokenErr × DB :=
  match firstById db token.ID with
  | some _ => (some .tokenAlreadyExists, db)
  | none => (none, insert db token)

/-- `Storer.UseToken` (memory.go lines 165-195): looks the record up
through the `id` index, fails with `ErrTokenNotFound` when absent, fails
with `ErrTokenUsed` when `Used` is already set, otherwise re-inserts
`ApplyChange(found, change)` for a change setting only `Used` to true. -/
def UseToken (db : DB) (id : String) : Option TokenErr × DB :=
  match firstById db id with
  | none => (some .tokenNotFound, db)
  | some found =>
    if found.Used then (some .tokenUsed, db)
    else (none, insert db (ApplyChange found { Used := some true }))

/-- Membership in the iterator chosen by the dispatch of
`Storer.UpdateTokens` (memory.go lines 117-127): exactly one non-empty
filter field selects through that field's lowercased index; any other
combination scans the whole table. -/
def candidate (change : RefreshTokenChange) (t : RefreshToken) : Bool :=
  if change.ID != "" && change.ProfileID == "" && change.ClientID == "" && change.AccountID == "" then
    strLower t.ID == strLower change.ID
  else if change.ProfileID != "" && change.ClientID == "" && change.ID == "" && change.AccountID == "" then
    strLower t.ProfileID == strLower change.ProfileID
  else if change.ClientID != "" && change.ProfileID == "" && change.ID == "" && change.AccountID == "" then
    strLower t.ClientID == strLower change.ClientID
  else if change.AccountID != "" && change.ProfileID == "" && change.ID == "" && change.ClientID == "" then
    strLower t.AccountID == strLower change.AccountID
  else true

/-- The in-loop `continue` checks of `Storer.UpdateTokens` (memory.go lines
141-152): a token is processed only when every non-empty filter field
matches it exactly. -/
def loopMatch (change : RefreshTokenChange) (t : RefreshToken) : Bool :=
  (change.ID == "" || t.ID == change.ID) &&
  (change.ProfileID == "" || t.ProfileID == change.ProfileID) &&
  (change.ClientID == "" || t.ClientID == change.ClientID) &&
  (change.AccountID == "" || t.AccountID == change.AccountID)

/-- `Storer.UpdateTokens` (memory.go lines 103-161): no-op success when the
change is empty, `ErrNoTokenChangeFilter` when it has no filter, otherwise
every token of the chosen iterator that passes the in-loop checks is
replaced by `ApplyChange` of itself (the iterator is a snapshot, and the
re-inserted token keeps its `ID`, so the sweep is a pointwise map). -/
def UpdateTokens (db : DB) (change : RefreshTokenChange) : Option TokenErr × DB :=
  if change.IsEmpty then (none, db)
  else if !change.HasFilter then (some .noTokenChangeFilter, db)
  else
    (none, db.map (fun t =>
      if candidate change t && loopMatch change t then ApplyChange t change else t))

/-- `Storer.GetTokensByProfileID` (memory.go lines 203-235): iterate the
lowercased `profileID` index, skip entries failing the `before`/`since`
restrictions, sort by `CreatedAt` most-recent-first, cap at
`NumTokenResults`. -/
def GetTokensByProfileID (db : DB) (profileID : String) (since before : Int) :
    List RefreshToken :=
  (sortByCreatedAtDesc (db.filter (fun t =>
    strLower t.ProfileID == strLower profileID &&
    keepsBefore before t && keepsSince since t))).take NumTokenResults

/-- A go-memdb table never holds two entries with the same lowercased `ID`
(the `id` index is unique); `CreateToken` maintains this. -/
def wellFormed (db : DB) : Prop :=
  db.Pairwise (fun a b => strLower a.ID ≠ strLower b.ID)

end Memory

namespace Postgres

/-! The PostgreSQL `Storer` of `storers/postgres/test_helpers.go`.  The
`tokens` table is modelled as the list of its rows; the primary key on
`id` keeps at most one row per `ID` (SQL string comparison is exact). -/

/-- State of the `tokens` table. -/
abbrev Table := List RefreshToken

/-- `Storer.GetToken`: `SELECT ... WHERE id = ?`; the scan loop unmarshals
every returned row into the same variable, so the last row wins (the
primary key makes more than one impossible). -/
def GetToken (tbl : Table) (id : String) : Except TokenErr RefreshToken :=
  match (tbl.filter (fun t => t.ID == id)).getLast? with
  | none => .error .tokenNotFound
  | some t => .ok t

/-- `Storer.CreateToken`: `INSERT`; a violation of the `tokens_pkey`
primary-key constraint is mapped to `ErrTokenAlreadyExists` and nothing is
inserted. -/
def CreateToken (tbl : Table) (token : RefreshToken) : Option TokenErr × Table :=
  if tbl.any (fun t => t.ID == token.ID) then (some .tokenAlreadyExists, tbl)
  else (none, tbl ++ [token])

/-- The `WHERE` clause built by `updateTokensSQL`: the conjunction of the
non-empty filter fields. -/
def whereMatch (change : RefreshTokenChange) (t : RefreshToken) : Bool :=
  (change.ID == "" || t.ID == change.ID) &&
  (change.ClientID == "" || t.ClientID == change.ClientID) &&
  (change.ProfileID == "" || t.ProfileID == change.ProfileID) &&
  (change.AccountID == "" || t.AccountID == change.AccountID)

/-- `Storer.UpdateTokens`: no-op success on an empty change,
`ErrNoTokenChangeFilter` on an unfiltered one, otherwise a single `UPDATE`
whose `SET` list is the non-absent mutation fields and whose `WHERE`
clause is the conjunction of the non-empty filters. -/
def UpdateTokens (tbl : Table) (change : RefreshTokenChange) : Option TokenErr × Table :=
  if change.IsEmpty then (none, tbl)
  else if !change.HasFilter then (some .noTokenChangeFilter, tbl)
  else
    (none, tbl.map (fun t => if whereMatch change t then ApplyChange t change else t))

/-- `Storer.UseToken`: the conditional
`UPDATE tokens SET used = true WHERE id = ? AND used = false`; when no row
is affected, the probe `SELECT COUNT(*) WHERE id = ? AND used = true`
classifies the failure as `ErrTokenUsed` or `ErrTokenNotFound`. -/
def UseToken (tbl : Table) (id : String) : Option TokenErr × Table :=
  if 1 ≤ tbl.countP (fun t => t.ID == id && t.Used == false) then
    (none, tbl.map (fun t =>
      if t.ID == id && t.Used == false then { t with Used := true } else t))
  else if 1 ≤ (tbl.map (fun t =>
      if t.ID == id && t.Used == false then { t with Used := true } else t)).countP
        (fun t => t.ID == id && t.Used == true) then
    (some .tokenUsed, tbl)
  else (some .tokenNotFound, tbl)

/-- `Storer.GetTokensByProfileID`: `SELECT ... WHERE profile_id = ?` with
the `created_at` predicates appended when `since`/`before` are non-zero,
`ORDER BY created_at DESC`, `LIMIT NumTokenResults`. -/
def GetTokensByProfileID (tbl : Table) (profileID : String) (since before : Int) :
    List RefreshToken :=
  (sortByCreatedAtDesc (tbl.filter (fun t =>
    t.ProfileID == profileID && keepsBefore before t && keepsSince since t))).take
    NumTokenResults

end Postgres

/-- Serialisation of `n` callers of `UseToken` on the same `id`.  Each call
is one atomic step (the memory backend runs it inside a single write
transaction holding the writer lock; the relational backend's conditional
`UPDATE` is atomic), so any concurrent execution of `n` callers is some
sequence of `n` such steps, and since all callers are identical, the one
sequence below. -/
def runUse (step : List RefreshToken → String → Option TokenErr × List RefreshToken) :
    Nat → List RefreshToken → String → List (Option TokenErr) × List RefreshToken
  | 0, db, _ => ([], db)
  | Nat.succ n, db, id =>
    ((step db id).1 :: (runUse step n (step db id).2 id).1,
     (runUse step n (step db id).2 id).2)

/-- Abstract form of a presented token string together with the facts the
`dgrijalva/jwt-go` v3.2.0 library establishes about it while parsing:
whether the segments decode (`wellFormed`), whether the header's signing
method is a `*jwt.SigningMethodRSA`, the `kid` header, whether the RSA
signature verifies under the configured public key, whether the temporal
claims (`exp`, `nbf`) pass `Claims.Valid()`, and the `Id` claim carried in
the payload. -/
structure PresentedJWT where
  wellFormed : Bool
  methodIsRSA : Bool
  kid : String
  signatureValid : Bool
  temporallyValid : Bool
  claimId : String
deriving DecidableEq, Repr

/-- Dynamic type of the `Claims` field of a parsed `jwt.Token`.  `jwt.Parse`
in jwt-go v3.2.0 delegates to `ParseWithClaims` with a `jwt.MapClaims`, so
a token it returns always carries `mapClaims`; `standardClaims` is the type
the tokens package asserts the field to. -/
inductive ParsedClaims where
  | mapClaims (id : String)
  | standardClaims (id : String)
deriving DecidableEq, Repr

/-- A parsed `jwt.Token` as far as `Validate` inspects it. -/
structure ParsedToken where
  claims : ParsedClaims
deriving DecidableEq, Repr

/-- Model of `jwt.Parse(jwtVal, keyFunc)` with the key function of
`Dependencies.Validate` (part_009 lines 134-146): reject malformed
strings; inside the key function reject a non-RSA signing method
("Unexpected signing method") and a `kid` header different from the
current public-key fingerprint ("unknown signing key"); then validate the
temporal claims and verify the signature.  A successful parse returns a
token whose `Claims` is the `jwt.MapClaims` that `jwt.Parse` decodes
into. -/
def jwtParse (fingerprint : String) (jwtVal : PresentedJWT) : Except String ParsedToken :=
  if !jwtVal.wellFormed then .error "token contains an invalid number of segments"
  else if !jwtVal.methodIsRSA then .error "Unexpected signing method"
  else if jwtVal.kid != fingerprint then .error "unknown signing key"
  else if !jwtVal.temporallyValid then .error "token temporal claims invalid"
  else if !jwtVal.signatureValid then .error "crypto/rsa: verification error"
  else .ok { claims := ParsedClaims.mapClaims jwtVal.claimId }

/-- `Dependencies.Validate` (part_009 lines 133-172), parameterised by the
current public-key fingerprint and the storer's `GetToken`.  On any parse
failure it returns `ErrInvalidToken`; it then asserts the parsed token's
`Claims` to `*jwt.StandardClaims` (returning `ErrInvalidToken` when the
assertion fails), fetches the record by the `Id` claim mapping
`ErrTokenNotFound` to `ErrInvalidToken` and propagating any other storage
error, and finally checks `Revoked` then `Used`. -/
def Validate (fingerprint : String) (getToken : String → Except TokenErr RefreshToken)
    (jwtVal : PresentedJWT) : Except TokenErr RefreshToken :=
  match jwtParse fingerprint jwtVal with
  | .error _ => .error .invalidToken
  | .ok tok =>
    match tok.claims with
    | .standardClaims claimsId =>
      match getToken claimsId with
      | .error .tokenNotFound => .error .invalidToken
      | .error e => .error e
      | .ok token =>
        if token.Revoked then .error .tokenRevoked
        else if token.Used then .error .tokenUsed
        else .ok token
    | .mapClaims _ => .error .invalidToken

/-- Fixture: an unused, unrevoked stored record. -/
def tokA : RefreshToken :=
  { ID := "T1", CreatedAt := 10, CreatedFrom := "web", Scopes := ["read", "write"],
    ProfileID := "p1", ClientID := "c1", AccountID := "a1" }

/-- Fixture: a second record for the same profile, created later. -/
def tokB : RefreshToken :=
  { ID := "T2", CreatedAt := 20, CreatedFrom := "web", Scopes := ["read"],
    ProfileID := "p1", ClientID := "c2", AccountID := "a1" }

/-- Fixture: a record for another profile. -/
def tokC : RefreshToken :=
  { ID := "T3", CreatedAt := 30, CreatedFrom := "web", Scopes := [],
    ProfileID := "p2", ClientID := "c2", AccountID := "a2" }

/-- Fixture: a presented token that is valid in every respect the envelope
layer checks: well-formed, RSA-signed, carrying the current fingerprint in
`kid`, signature verifying, temporally valid, and naming `tokA`'s ID. -/
def validEnvelope : PresentedJWT :=
  { wellFormed := true, methodIsRSA := true, kid := "SHA256:fp",
    signatureValid := true, temporallyValid := true, claimId := "T1" }

/-! Helper lemmas about the memory storer's index operations. -/

namespace Memory

theorem firstById_key {db : DB} {id : String} {r : RefreshToken}
    (h : firstById db id = some r) : strLower r.ID = strLower id := by
  have := List.find?_some h
  simpa using this

theorem firstById_mem {db : DB} {id : String} {r : RefreshToken}
    (h : firstById db id = some r) : r ∈ db :=
  List.mem_of_find?_eq_some h

theorem firstById_insert {db : DB} {tok : RefreshToken} {id : String}
    (h : strLower tok.ID = strLower id) :
    firstById (insert db tok) id = some tok := by
  unfold insert
  split
  case isTrue hany =>
    induction db with
    | nil => simp at hany
    | cons hd tl ih =>
      by_cases hm : strLower hd.ID = strLower tok.ID
      · simp [firstById, List.find?, hm, h]
      · have htl : tl.any (fun t => strLower t.ID == strLower tok.ID) = true := by
          simp only [List.any_cons, Bool.or_eq_true, beq_iff_eq] at hany
          rcases hany with h1 | h1
          · exact absurd h1 hm
          · simpa using h1
        have hne : (strLower hd.ID == strLower id) = false := by
          rw [← h]
          simpa using hm
        simpa [firstById, List.find?, hm, hne] using ih htl
  case isFalse hany =>
    induction db with
    | nil => simp [firstById, List.find?, h]
    | cons hd tl ih =>
      have hm : ¬ strLower hd.ID = strLower tok.ID := by
        intro hcontra
        exact hany (by simp [List.any_cons, hcontra])
      have htl : ¬ tl.any (fun t => strLower t.ID == strLower tok.ID) = true := by
        intro hcontra
        exact hany (by simp [List.any_cons, hcontra])
      have hne : (strLower hd.ID == strLower id) = false := by
        rw [← h]
        simpa using hm
      simpa [firstById, List.find?, hne] using ih htl

theorem firstById_wellFormed {db : DB} {tok : RefreshToken} {id : String}
    (hwf : wellFormed db) (hmem : tok ∈ db) (hid : strLower id = strLower tok.ID) :
    firstById db id = some tok := by
  induction db with
  | nil => simp at hmem
  | cons hd tl ih =>
    rcases List.mem_cons.mp hmem with rfl | hmem'
    · simp [firstById, List.find?, hid]
    · have hne : strLower hd.ID ≠ strLower tok.ID :=
        (List.pairwise_cons.mp hwf).1 tok hmem'
      have hfalse : (strLower hd.ID == strLower id) = false := by
        rw [hid]
        simpa using hne
      have := ih (List.pairwise_cons.mp hwf).2 hmem'
      simpa [firstById, List.find?, hfalse] using this

end Memory

/-- A change that sets only `Used` to true acts on a token by setting its
`Used` field. -/
theorem applyChange_useOnly (r : RefreshToken) :
    ApplyChange r { Used := some true } = { r with Used := true } := rfl

/-- Claim C9: `ApplyChange(t, empty)` equals `t` whenever both mutation
fields of the change are absent; `ApplyChange(ApplyChange(t, c), c)` equals
`ApplyChange(t, c)`; and `ApplyChange` modifies at most the `Revoked` and
`Used` fields, leaving every other field of `t` unchanged. -/
theorem applyChange_laws (t : RefreshToken) (c : RefreshTokenChange) :
    (c.IsEmpty = true → ApplyChange t c = t) ∧
    ApplyChange (ApplyChange t c) c = ApplyChange t c ∧
    ((ApplyChange t c).ID = t.ID ∧ (ApplyChange t c).CreatedAt = t.CreatedAt ∧
     (ApplyChange t c).CreatedFrom = t.CreatedFrom ∧ (ApplyChange t c).Scopes = t.Scopes ∧
     (ApplyChange t c).ProfileID = t.ProfileID ∧ (ApplyChange t c).ClientID = t.ClientID ∧
     (ApplyChange t c).AccountID = t.AccountID) := by
  obtain ⟨cid, cpid, ccid, caid, crev, cused⟩ := c
  cases crev <;> cases cused <;>
    simp [ApplyChange, RefreshTokenChange.IsEmpty]

/-- Witness for `applyChange_laws` at a concrete token and change. -/
theorem applyChange_laws_witness :
    ({ ID := "t1", Revoked := some true : RefreshTokenChange }.IsEmpty = true →
      ApplyChange tokA { ID := "t1", Revoked := some true } = tokA) ∧
    ApplyChange (ApplyChange tokA { ID := "t1", Revoked := some true })
        { ID := "t1", Revoked := some true } =
      ApplyChange tokA { ID := "t1", Revoked := some true } ∧
    ((ApplyChange tokA { ID := "t1", Revoked := some true }).ID = tokA.ID ∧
     (ApplyChange tokA { ID := "t1", Revoked := some true }).CreatedAt = tokA.CreatedAt ∧
     (ApplyChange tokA { ID := "t1", Revoked := some true }).CreatedFrom = tokA.CreatedFrom ∧
     (ApplyChange tokA { ID := "t1", Revoked := some true }).Scopes = tokA.Scopes ∧
     (ApplyChange tokA { ID := "t1", Revoked := some true }).ProfileID = tokA.ProfileID ∧
     (ApplyChange tokA { ID := "t1", Revoked := some true }).ClientID = tokA.ClientID ∧
     (ApplyChange tokA { ID := "t1", Revoked := some true }).AccountID = tokA.AccountID) :=
  applyChange_laws tokA { ID := "t1", Revoked := some true }

/-- Claim C6: in both backends, `UpdateTokens` of a change whose two
mutation fields are absent is a success that leaves every stored record
unchanged, whatever the filter fields; and `UpdateTokens` of a change with
at least one mutation field but every filter field empty fails with
`ErrNoTokenChangeFilter` and changes no record. -/
theorem updateTokens_guards (change : RefreshTokenChange) (db : Memory.DB)
    (tbl : Postgres.Table) :
    (change.IsEmpty = true →
      Memory.UpdateTokens db change = (none, db) ∧
      Postgres.UpdateTokens tbl change = (none, tbl)) ∧
    (change.IsEmpty = false → change.HasFilter = false →
      Memory.UpdateTokens db change = (some .noTokenChangeFilter, db) ∧
      Postgres.UpdateTokens tbl change = (some .noTokenChangeFilter, tbl)) := by
  constructor
  · intro h
    constructor <;> simp [Memory.UpdateTokens, Postgres.UpdateTokens, h]
  · intro h1 h2
    constructor <;> simp [Memory.UpdateTokens, Postgres.UpdateTokens, h1, h2]

/-- Witness for `updateTokens_guards`: a mutation-only change is rejected
with `ErrNoTokenChangeFilter` by both backends, and an empty change is a
no-op success. -/
theorem updateTokens_guards_witness :
    (Memory.UpdateTokens [tokA] { Revoked := some true } =
      (some .noTokenChangeFilter, [tokA]) ∧
     Postgres.UpdateTokens [tokA] { Revoked := some true } =
      (some .noTokenChangeFilter, [tokA])) ∧
    (Memory.UpdateTokens [tokA] { ID := "T1" } = (none, [tokA]) ∧
     Postgres.UpdateTokens [tokA] { ID := "T1" } = (none, [tokA])) :=
  ⟨(updateTokens_guards { Revoked := some true } [tokA] [tokA]).2 (by decide) (by decide),
   (updateTokens_guards { ID := "T1" } [tokA] [tokA]).1 (by decide)⟩

/-- The in-loop exact-match checks imply membership in the dispatched
iterator: a token matching every non-empty filter exactly is in particular
found through whichever single lowercased index the dispatch selects. -/
theorem candidate_of_loopMatch (change : RefreshTokenChange) (t : RefreshToken)
    (h : Memory.loopMatch change t = true) : Memory.candidate change t = true := by
  simp only [Memory.loopMatch, Bool.and_eq_true, Bool.or_eq_true, beq_iff_eq] at h
  obtain ⟨⟨⟨hID, hP⟩, hC⟩, hA⟩ := h
  unfold Memory.candidate
  split_ifs with h1 h2 h3 h4
  · simp only [Bool.and_eq_true, bne_iff_ne, beq_iff_eq] at h1
    rcases hID with hid | hid
    · exact absurd hid h1.1.1.1
    · simp [hid]
  · simp only [Bool.and_eq_true, bne_iff_ne, beq_iff_eq] at h2
    rcases hP with hp | hp
    · exact absurd hp h2.1.1.1
    · simp [hp]
  · simp only [Bool.and_eq_true, bne_iff_ne, beq_iff_eq] at h3
    rcases hC with hc | hc
    · exact absurd hc h3.1.1.1
    · simp [hc]
  · simp only [Bool.and_eq_true, bne_iff_ne, beq_iff_eq] at h4
    rcases hA with ha | ha
    · exact absurd ha h4.1.1.1
    · simp [ha]
  · rfl

/-- Claim C7: for a non-empty change with at least one non-empty filter
field, the memory backend's `UpdateTokens` succeeds and applies
`ApplyChange` exactly to the records matching every non-empty filter field
simultaneously, leaving every other record unchanged; an empty match set
is still a success. -/
theorem updateTokens_filter_conjunction (db : Memory.DB) (change : RefreshTokenChange)
    (hne : change.IsEmpty = false) (hf : change.HasFilter = true) :
    Memory.UpdateTokens db change =
      (none, db.map (fun t =>
        if Memory.loopMatch change t then ApplyChange t change else t)) := by
  have hfun : (fun t => if Memory.candidate change t && Memory.loopMatch change t then
        ApplyChange t change else t)
      = (fun t => if Memory.loopMatch change t then ApplyChange t change else t) := by
    funext t
    cases hm : Memory.loopMatch change t
    · simp [hm]
    · simp [hm, candidate_of_loopMatch change t hm]
  have hstep : Memory.UpdateTokens db change =
      (none, db.map (fun t =>
        if Memory.candidate change t && Memory.loopMatch change t then
          ApplyChange t change else t)) := by
    unfold Memory.UpdateTokens
    rw [hne, hf]
    simp
  rw [hstep, hfun]

/-- Witness for `updateTokens_filter_conjunction`: a change filtering on
`ProfileID` and `ClientID` together revokes exactly the token matching
both and leaves the others alone. -/
theorem updateTokens_filter_conjunction_witness :
    Memory.UpdateTokens [tokA, tokB, tokC]
        { ProfileID := "p1", ClientID := "c2", Revoked := some true } =
      (none, List.map (fun t =>
        if Memory.loopMatch { ProfileID := "p1", ClientID := "c2", Revoked := some true } t
        then ApplyChange t { ProfileID := "p1", ClientID := "c2", Revoked := some true }
        else t) [tokA, tokB, tokC]) :=
  updateTokens_filter_conjunction [tokA, tokB, tokC]
    { ProfileID := "p1", ClientID := "c2", Revoked := some true } (by decide) (by decide)

namespace Memory

theorem useToken_used_mem {db : DB} {id : String} {r : RefreshToken}
    (h : firstById db id = some r) (hu : r.Used = true) :
    UseToken db id = (some .tokenUsed, db) := by
  simp [UseToken, h, hu]

theorem useToken_missing_mem {db : DB} {id : String} (h : firstById db id = none) :
    UseToken db id = (some .tokenNotFound, db) := by
  simp [UseToken, h]

theorem useToken_success_mem {db : DB} {id : String} {r : RefreshToken}
    (h : firstById db id = some r) (hu : r.Used = false) :
    UseToken db id = (none, insert db { r with Used := true }) := by
  simp [UseToken, h, hu, applyChange_useOnly]

theorem useToken_success_map {db : DB} {id : String} {r : RefreshToken}
    (h : firstById db id = some r) (hu : r.Used = false) :
    UseToken db id = (none, db.map (fun t =>
      if strLower t.ID == strLower id then { r with Used := true } else t)) := by
  rw [useToken_success_mem h hu]
  have hkey0 : strLower r.ID = strLower id := firstById_key h
  have hkey : strLower ({ r with Used := true } : RefreshToken).ID = strLower id := hkey0
  unfold insert
  have hany : (db.any (fun t =>
      strLower t.ID == strLower ({ r with Used := true } : RefreshToken).ID)) = true :=
    List.any_eq_true.mpr ⟨r, firstById_mem h, by simp⟩
  rw [hany]
  have hfun : (fun t : RefreshToken =>
      if strLower t.ID == strLower ({ r with Used := true } : RefreshToken).ID then
        ({ r with Used := true } : RefreshToken) else t)
      = (fun t : RefreshToken =>
        if strLower t.ID == strLower id then { r with Used := true } else t) := by
    funext t
    rw [hkey]
  rw [hfun]
  simp

end Memory

namespace Postgres

theorem useToken_missing_pg {tbl : Table} {id : String}
    (hfil : tbl.filter (fun t => t.ID == id) = []) :
    UseToken tbl id = (some .tokenNotFound, tbl) := by
  have hnone : ∀ a ∈ tbl, ¬ (a.ID == id) = true := List.filter_eq_nil_iff.mp hfil
  have hcount : tbl.countP (fun t => t.ID == id && t.Used == false) = 0 := by
    refine List.countP_eq_zero.mpr ?_
    intro a ha hc
    simp only [Bool.and_eq_true] at hc
    exact hnone a ha hc.1
  have hmapid : tbl.map (fun t =>
      if t.ID == id && t.Used == false then { t with Used := true } else t) = tbl := by
    have hpt : ∀ a ∈ tbl,
        (if a.ID == id && a.Used == false then { a with Used := true } else a) = a := by
      intro a ha
      have hfa : (a.ID == id) = false := by
        cases hc : (a.ID == id) with
        | true => exact absurd hc (hnone a ha)
        | false => rfl
      simp [hfa]
    have := List.map_congr_left hpt
    simpa using this
  have hcount2 : tbl.countP (fun t => t.ID == id && t.Used == true) = 0 := by
    refine List.countP_eq_zero.mpr ?_
    intro a ha hc
    simp only [Bool.and_eq_true] at hc
    exact hnone a ha hc.1
  unfold UseToken
  rw [hcount, hmapid, hcount2]
  simp

theorem useToken_used_pg {tbl : Table} {id : String} {r : RefreshToken}
    (hfil : tbl.filter (fun t => t.ID == id) = [r]) (hu : r.Used = true) :
    UseToken tbl id = (some .tokenUsed, tbl) := by
  have hr : r ∈ tbl.filter (fun t => t.ID == id) := by
    rw [hfil]; exact List.mem_singleton.mpr rfl
  have hrmem : r ∈ tbl := (List.mem_filter.mp hr).1
  have hrid : r.ID = id := by
    have := (List.mem_filter.mp hr).2
    simpa using this
  have honly : ∀ a ∈ tbl, (a.ID == id) = true → a = r := by
    intro a ha hc
    have : a ∈ tbl.filter (fun t => t.ID == id) := List.mem_filter.mpr ⟨ha, hc⟩
    rw [hfil] at this
    exact List.mem_singleton.mp this
  have hcount : tbl.countP (fun t => t.ID == id && t.Used == false) = 0 := by
    refine List.countP_eq_zero.mpr ?_
    intro a ha hc
    simp only [Bool.and_eq_true] at hc
    have := honly a ha hc.1
    subst this
    rw [hu] at hc
    simpa using hc.2
  have hmapid : tbl.map (fun t =>
      if t.ID == id && t.Used == false then { t with Used := true } else t) = tbl := by
    have hpt : ∀ a ∈ tbl,
        (if a.ID == id && a.Used == false then { a with Used := true } else a) = a := by
      intro a ha
      cases hc : (a.ID == id) with
      | false => simp [hc]
      | true =>
        have := honly a ha hc
        subst this
        simp [hu]
    have := List.map_congr_left hpt
    simpa using this
  have hcount2 : 1 ≤ tbl.countP (fun t => t.ID == id && t.Used == true) :=
    List.countP_pos_iff.mpr ⟨r, hrmem, by simp [hrid, hu]⟩
  unfold UseToken
  rw [hcount, hmapid]
  rw [if_neg (by omega : ¬ (1 : Nat) ≤ 0), if_pos hcount2]

theorem useToken_success_pg {tbl : Table} {id : String} {r : RefreshToken}
    (hfil : tbl.filter (fun t => t.ID == id) = [r]) (hu : r.Used = false) :
    UseToken tbl id = (none, tbl.map (fun t =>
      if t.ID == id && t.Used == false then { t with Used := true } else t)) := by
  have hr : r ∈ tbl.filter (fun t => t.ID == id) := by
    rw [hfil]; exact List.mem_singleton.mpr rfl
  have hrmem : r ∈ tbl := (List.mem_filter.mp hr).1
  have hrid : r.ID = id := by
    have := (List.mem_filter.mp hr).2
    simpa using this
  have hpos : 1 ≤ tbl.countP (fun t => t.ID == id && t.Used == false) :=
    List.countP_pos_iff.mpr ⟨r, hrmem, by simp [hrid, hu]⟩
  unfold UseToken
  rw [if_pos hpos]

/-- Updating the singleton matched row commutes with the `WHERE id = ?`
filter: after the conditional `UPDATE`, the row with the given `ID` is the
old row with `Used` set. -/
theorem filter_after_use {tbl : Table} {id : String} {r : RefreshToken}
    (hfil : tbl.filter (fun t => t.ID == id) = [r]) (hu : r.Used = false) :
    (tbl.map (fun t =>
      if t.ID == id && t.Used == false then { t with Used := true } else t)).filter
        (fun t => t.ID == id) = [{ r with Used := true }] := by
  have hr : r ∈ tbl.filter (fun t => t.ID == id) := by
    rw [hfil]; exact List.mem_singleton.mpr rfl
  have hrid : r.ID = id := by
    have := (List.mem_filter.mp hr).2
    simpa using this
  rw [List.filter_map]
  have hfeq : tbl.filter ((fun t => t.ID == id) ∘ (fun t =>
      if t.ID == id && t.Used == false then { t with Used := true } else t))
      = tbl.filter (fun t => t.ID == id) := by
    apply List.filter_congr
    intro a _
    show ((if a.ID == id && a.Used == false then
      ({ a with Used := true } : RefreshToken) else a).ID == id) = (a.ID == id)
    cases hc : (a.ID == id && a.Used == false) with
    | true => simp [hc]
    | false => simp [hc]
  rw [hfeq, hfil]
  simp [hrid, hu]

end Postgres

/-- Claim C3: a sequential `UseToken(id)` call, in both backends,
(1) succeeds and flips exactly the `Used` field of the identified record
from false to true when that record exists with `Used = false` (every
other record and every other field is unchanged), (2) fails with
`ErrTokenUsed` leaving the store unchanged when the record exists with
`Used = true`, and (3) fails with `ErrTokenNotFound` leaving the store
unchanged when no record has the id. -/
theorem useToken_cases (id : String) (db : Memory.DB) (tbl : Postgres.Table) :
    (∀ r, Memory.firstById db id = some r → r.Used = false →
      Memory.UseToken db id = (none, db.map (fun t =>
        if strLower t.ID == strLower id then { r with Used := true } else t))) ∧
    (∀ r, Memory.firstById db id = some r → r.Used = true →
      Memory.UseToken db id = (some .tokenUsed, db)) ∧
    (Memory.firstById db id = none →
      Memory.UseToken db id = (some .tokenNotFound, db)) ∧
    (∀ r, tbl.filter (fun t => t.ID == id) = [r] → r.Used = false →
      Postgres.UseToken tbl id = (none, tbl.map (fun t =>
        if t.ID == id && t.Used == false then { t with Used := true } else t))) ∧
    (∀ r, tbl.filter (fun t => t.ID == id) = [r] → r.Used = true →
      Postgres.UseToken tbl id = (some .tokenUsed, tbl)) ∧
    (tbl.filter (fun t => t.ID == id) = [] →
      Postgres.UseToken tbl id = (some .tokenNotFound, tbl)) :=
  ⟨fun _ h hu => Memory.useToken_success_map h hu,
   fun _ h hu => Memory.useToken_used_mem h hu,
   fun h => Memory.useToken_missing_mem h,
   fun _ h hu => Postgres.useToken_success_pg h hu,
   fun _ h hu => Postgres.useToken_used_pg h hu,
   fun h => Postgres.useToken_missing_pg h⟩

/-- Witness for `useToken_cases`: using the single unused stored token
succeeds in both backends, and using a missing id fails with
`ErrTokenNotFound`. -/
theorem useToken_cases_witness :
    Memory.UseToken [tokA] "T1" = (none, List.map (fun t =>
      if strLower t.ID == strLower "T1" then { tokA with Used := true } else t) [tokA]) ∧
    Postgres.UseToken [tokA] "T1" = (none, List.map (fun t =>
      if t.ID == "T1" && t.Used == false then { t with Used := true } else t) [tokA]) ∧
    Memory.UseToken [] "missing" = (some .tokenNotFound, []) :=
  ⟨(useToken_cases "T1" [tokA] [tokA]).1 tokA (by decide) (by decide),
   (useToken_cases "T1" [tokA] [tokA]).2.2.2.1 tokA (by decide) (by decide),
   (useToken_cases "missing" [] []).2.2.1 (by decide)⟩

/-- Claim C5: in both backends, once a token is stored, any further
`CreateToken` of a token carrying the same `ID` fails with
`ErrTokenAlreadyExists`, the store (and so the previously stored record,
field by field) is left unchanged, and nothing is inserted. -/
theorem createToken_exclusive (db : Memory.DB) (tbl : Postgres.Table)
    (tok tok' : RefreshToken) (hid : tok'.ID = tok.ID) :
    (∀ db1, Memory.CreateToken db tok = (none, db1) →
      Memory.CreateToken db1 tok' = (some .tokenAlreadyExists, db1) ∧
      Memory.GetToken db1 tok.ID = .ok tok) ∧
    (∀ tbl1, Postgres.CreateToken tbl tok = (none, tbl1) →
      Postgres.CreateToken tbl1 tok' = (some .tokenAlreadyExists, tbl1) ∧
      Postgres.GetToken tbl1 tok.ID = .ok tok) := by
  constructor
  · intro db1 h
    cases hf : Memory.firstById db tok.ID with
    | some t => simp [Memory.CreateToken, hf] at h
    | none =>
      simp [Memory.CreateToken, hf] at h
      subst h
      have hfind : Memory.firstById (Memory.insert db tok) tok'.ID = some tok :=
        Memory.firstById_insert (by rw [hid])
      have hfind2 : Memory.firstById (Memory.insert db tok) tok.ID = some tok :=
        Memory.firstById_insert rfl
      constructor
      · simp [Memory.CreateToken, hfind]
      · simp [Memory.GetToken, hfind2]
  · intro tbl1 h
    cases hany : tbl.any (fun t => t.ID == tok.ID) with
    | true => simp [Postgres.CreateToken, hany] at h
    | false =>
      simp only [Postgres.CreateToken, hany, Bool.false_eq_true, if_false,
        Prod.mk.injEq, true_and] at h
      subst h
      have hmem : tok ∈ tbl ++ [tok] := by simp
      have hdup : ((tbl ++ [tok]).any (fun t => t.ID == tok'.ID)) = true :=
        List.any_eq_true.mpr ⟨tok, hmem, by simp [hid]⟩
      have hfilnil : tbl.filter (fun t => t.ID == tok.ID) = [] := by
        rw [List.filter_eq_nil_iff]
        intro a ha hc
        have : tbl.any (fun t => t.ID == tok.ID) = true :=
          List.any_eq_true.mpr ⟨a, ha, hc⟩
        rw [this] at hany
        cases hany
      have hfil : (tbl ++ [tok]).filter (fun t => t.ID == tok.ID) = [tok] := by
        rw [List.filter_append, hfilnil]
        simp
      constructor
      · simp [Postgres.CreateToken, hdup]
      · simp [Postgres.GetToken, hfil]

/-- Witness for `createToken_exclusive`: creating `tokA` twice in both
backends fails the second time with `ErrTokenAlreadyExists` and reads back
the original record. -/
theorem createToken_exclusive_witness :
    (Memory.CreateToken [tokA] tokA = (some .tokenAlreadyExists, [tokA]) ∧
     Memory.GetToken [tokA] tokA.ID = .ok tokA) ∧
    (Postgres.CreateToken [tokA] tokA = (some .tokenAlreadyExists, [tokA]) ∧
     Postgres.GetToken [tokA] tokA.ID = .ok tokA) :=
  ⟨(createToken_exclusive [] [] tokA tokA rfl).1 [tokA] (by decide),
   (createToken_exclusive [] [] tokA tokA rfl).2 [tokA] (by decide)⟩

/-- Claim C10: in the memory backend, record IDs are compared
case-insensitively at the public interface.  For every stored token (in a
table whose unique `id` index is intact) and every id string equal to the
token's `ID` up to ASCII letter case, `GetToken` and `UseToken` resolve to
that record, and `CreateToken` of a token whose `ID` differs from the
stored record's only in case fails with `ErrTokenAlreadyExists`. -/
theorem memory_id_case_insensitive (db : Memory.DB) (tok : RefreshToken) (id : String)
    (hwf : Memory.wellFormed db) (hmem : tok ∈ db)
    (hid : strLower id = strLower tok.ID) :
    Memory.GetToken db id = .ok tok ∧
    (tok.Used = true → Memory.UseToken db id = (some .tokenUsed, db)) ∧
    (tok.Used = false → (Memory.UseToken db id).1 = none ∧
      Memory.GetToken (Memory.UseToken db id).2 id = .ok { tok with Used := true }) ∧
    (∀ tok', strLower tok'.ID = strLower tok.ID →
      Memory.CreateToken db tok' = (some .tokenAlreadyExists, db)) := by
  have hfind : Memory.firstById db id = some tok :=
    Memory.firstById_wellFormed hwf hmem hid
  refine ⟨?_, ?_, ?_, ?_⟩
  · simp [Memory.GetToken, hfind]
  · intro hu
    exact Memory.useToken_used_mem hfind hu
  · intro hu
    rw [Memory.useToken_success_mem hfind hu]
    have hkey : strLower ({ tok with Used := true } : RefreshToken).ID = strLower id := by
      show strLower tok.ID = strLower id
      exact hid.symm
    have hfind2 : Memory.firstById
        (Memory.insert db { tok with Used := true }) id = some { tok with Used := true } :=
      Memory.firstById_insert hkey
    exact ⟨rfl, by simp [Memory.GetToken, hfind2]⟩
  · intro tok' hid'
    have hfind3 : Memory.firstById db tok'.ID = some tok :=
      Memory.firstById_wellFormed hwf hmem (by rw [hid'])
    simp [Memory.CreateToken, hfind3]

/-- Witness for `memory_id_case_insensitive`: the record stored under
`"T1"` is found by `GetToken` under `"t1"`, and creating a token with ID
`"t1"` collides with it. -/
theorem memory_id_case_insensitive_witness :
    Memory.GetToken [tokA] "t1" = .ok tokA ∧
    Memory.CreateToken [tokA] { tokA with ID := "t1" } =
      (some .tokenAlreadyExists, [tokA]) :=
  ⟨(memory_id_case_insensitive [tokA] tokA "t1" (by simp [Memory.wellFormed])
      (by simp) (by decide)).1,
   (memory_id_case_insensitive [tokA] tokA "t1" (by simp [Memory.wellFormed])
      (by simp) (by decide)).2.2.2 { tokA with ID := "t1" } (by decide)⟩

/-- Once the record behind `id` is marked used, every further serialized
`UseToken` call in the memory backend returns `ErrTokenUsed` and leaves
the table unchanged. -/
theorem runUse_steady_memory {db : Memory.DB} {id : String} {u : RefreshToken}
    (h : Memory.firstById db id = some u) (hu : u.Used = true) :
    ∀ k, runUse Memory.UseToken k db id = (List.replicate k (some .tokenUsed), db) := by
  intro k
  induction k with
  | zero => rfl
  | succ k ih =>
    show ((Memory.UseToken db id).1 ::
        (runUse Memory.UseToken k (Memory.UseToken db id).2 id).1,
      (runUse Memory.UseToken k (Memory.UseToken db id).2 id).2) = _
    rw [Memory.useToken_used_mem h hu]
    simp only at ih ⊢
    rw [ih]
    rfl

/-- Once the row behind `id` is marked used, every further serialized
`UseToken` call in the PostgreSQL backend returns `ErrTokenUsed` and
leaves the table unchanged. -/
theorem runUse_steady_postgres {tbl : Postgres.Table} {id : String} {u : RefreshToken}
    (hfil : tbl.filter (fun t => t.ID == id) = [u]) (hu : u.Used = true) :
    ∀ k, runUse Postgres.UseToken k tbl id = (List.replicate k (some .tokenUsed), tbl) := by
  intro k
  induction k with
  | zero => rfl
  | succ k ih =>
    show ((Postgres.UseToken tbl id).1 ::
        (runUse Postgres.UseToken k (Postgres.UseToken tbl id).2 id).1,
      (runUse Postgres.UseToken k (Postgres.UseToken tbl id).2 id).2) = _
    rw [Postgres.useToken_used_pg hfil hu]
    simp only at ih ⊢
    rw [ih]
    rfl

/-- A serialized run of `n + 1` `UseToken` calls on an unused record in
the memory backend: the first call succeeds, the rest fail with
`ErrTokenUsed`. -/
theorem runUse_memory {db : Memory.DB} {id : String} {r : RefreshToken}
    (h : Memory.firstById db id = some r) (hu : r.Used = false) (n : Nat) :
    runUse Memory.UseToken (n + 1) db id =
      (none :: List.replicate n (some .tokenUsed),
       Memory.insert db { r with Used := true }) := by
  have hkey : strLower ({ r with Used := true } : RefreshToken).ID = strLower id := by
    show strLower r.ID = strLower id
    exact Memory.firstById_key h
  have hfind : Memory.firstById (Memory.insert db { r with Used := true }) id =
      some { r with Used := true } := Memory.firstById_insert hkey
  show ((Memory.UseToken db id).1 ::
      (runUse Memory.UseToken n (Memory.UseToken db id).2 id).1,
    (runUse Memory.UseToken n (Memory.UseToken db id).2 id).2) = _
  rw [Memory.useToken_success_mem h hu]
  rw [runUse_steady_memory hfind rfl n]

/-- A serialized run of `n + 1` `UseToken` calls on an unused row in the
PostgreSQL backend: the first call succeeds, the rest fail with
`ErrTokenUsed`. -/
theorem runUse_postgres {tbl : Postgres.Table} {id : String} {s : RefreshToken}
    (hfil : tbl.filter (fun t => t.ID == id) = [s]) (hsu : s.Used = false) (n : Nat) :
    runUse Postgres.UseToken (n + 1) tbl id =
      (none :: List.replicate n (some .tokenUsed),
       tbl.map (fun t =>
        if t.ID == id && t.Used == false then { t with Used := true } else t)) := by
  have hfil2 := Postgres.filter_after_use hfil hsu
  show ((Postgres.UseToken tbl id).1 ::
      (runUse Postgres.UseToken n (Postgres.UseToken tbl id).2 id).1,
    (runUse Postgres.UseToken n (Postgres.UseToken tbl id).2 id).2) = _
  rw [Postgres.useToken_success_pg hfil hsu]
  rw [runUse_steady_postgres hfil2 rfl n]

/-- Claim C1: for a stored record with `Used = false`, `n ≥ 1` concurrent
`UseToken` callers on its id — which both backends serialize: the memory
backend in single write transactions on the writer lock, the PostgreSQL
backend through the atomic conditional `UPDATE` — produce exactly one
success and `n - 1` `ErrTokenUsed` results, no other outcome, and leave
the record with `Used = true`. -/
theorem useToken_single_use (db : Memory.DB) (tbl : Postgres.Table) (id : String)
    (n : Nat) (hn : 1 ≤ n)
    (r : RefreshToken) (hr : Memory.firstById db id = some r) (hru : r.Used = false)
    (s : RefreshToken) (hs : tbl.filter (fun t => t.ID == id) = [s]) (hsu : s.Used = false) :
    ((runUse Memory.UseToken n db id).1.count none = 1 ∧
     (runUse Memory.UseToken n db id).1.count (some .tokenUsed) = n - 1 ∧
     (∀ o ∈ (runUse Memory.UseToken n db id).1, o = none ∨ o = some .tokenUsed) ∧
     (∃ r', Memory.firstById (runUse Memory.UseToken n db id).2 id = some r' ∧
        r'.Used = true)) ∧
    ((runUse Postgres.UseToken n tbl id).1.count none = 1 ∧
     (runUse Postgres.UseToken n tbl id).1.count (some .tokenUsed) = n - 1 ∧
     (∀ o ∈ (runUse Postgres.UseToken n tbl id).1, o = none ∨ o = some .tokenUsed) ∧
     (∃ s', (runUse Postgres.UseToken n tbl id).2.filter (fun t => t.ID == id) = [s'] ∧
        s'.Used = true)) := by
  obtain ⟨m, rfl⟩ : ∃ m, n = m + 1 := by
    cases n with
    | zero => omega
    | succ m => exact ⟨m, rfl⟩
  have hmemrun := runUse_memory hr hru m
  have hpgrun := runUse_postgres hs hsu m
  constructor
  · rw [hmemrun]
    refine ⟨?_, ?_, ?_, ?_⟩
    · simp [List.count_cons, List.count_replicate]
    · simp [List.count_cons, List.count_replicate]
    · intro o ho
      rcases List.mem_cons.mp ho with rfl | ho'
      · exact Or.inl rfl
      · exact Or.inr (List.eq_of_mem_replicate ho')
    · refine ⟨{ r with Used := true }, ?_, rfl⟩
      have hkey : strLower ({ r with Used := true } : RefreshToken).ID = strLower id := by
        show strLower r.ID = strLower id
        exact Memory.firstById_key hr
      exact Memory.firstById_insert hkey
  · rw [hpgrun]
    refine ⟨?_, ?_, ?_, ?_⟩
    · simp [List.count_cons, List.count_replicate]
    · simp [List.count_cons, List.count_replicate]
    · intro o ho
      rcases List.mem_cons.mp ho with rfl | ho'
      · exact Or.inl rfl
      · exact Or.inr (List.eq_of_mem_replicate ho')
    · exact ⟨{ s with Used := true }, Postgres.filter_after_use hs hsu, rfl⟩

/-- Witness for `useToken_single_use`: 20 serialized callers on the single
unused record yield exactly one success and 19 `ErrTokenUsed` in both
backends. -/
theorem useToken_single_use_witness :
    ((runUse Memory.UseToken 20 [tokA] "T1").1.count none = 1 ∧
     (runUse Memory.UseToken 20 [tokA] "T1").1.count (some .tokenUsed) = 20 - 1 ∧
     (∀ o ∈ (runUse Memory.UseToken 20 [tokA] "T1").1,
        o = none ∨ o = some .tokenUsed) ∧
     (∃ r', Memory.firstById (runUse Memory.UseToken 20 [tokA] "T1").2 "T1" = some r' ∧
        r'.Used = true)) ∧
    ((runUse Postgres.UseToken 20 [tokA] "T1").1.count none = 1 ∧
     (runUse Postgres.UseToken 20 [tokA] "T1").1.count (some .tokenUsed) = 20 - 1 ∧
     (∀ o ∈ (runUse Postgres.UseToken 20 [tokA] "T1").1,
        o = none ∨ o = some .tokenUsed) ∧
     (∃ s', (runUse Postgres.UseToken 20 [tokA] "T1").2.filter
        (fun t => t.ID == "T1") = [s'] ∧ s'.Used = true)) :=
  useToken_single_use [tokA] [tokA] "T1" 20 (by omega) tokA (by decide) (by decide)
    tokA (by decide) (by decide)

/-- The `before` restriction holds exactly when `before` is zero or the
creation instant is strictly earlier. -/
theorem keepsBefore_iff (b : Int) (t : RefreshToken) :
    keepsBefore b t = true ↔ (b ≠ 0 → t.CreatedAt < b) := by
  by_cases hb : b = 0 <;> simp [keepsBefore, hb]

/-- The `since` restriction holds exactly when `since` is zero or the
creation instant is strictly later. -/
theorem keepsSince_iff (s : Int) (t : RefreshToken) :
    keepsSince s t = true ↔ (s ≠ 0 → s < t.CreatedAt) := by
  by_cases hs : s = 0 <;> simp [keepsSince, hs]

/-- Claim C8: `GetTokensByProfileID` in the memory backend returns at most
25 records, all matching the profile id (through the lowercased index),
restricted to `CreatedAt > since` when `since` is non-zero and
`CreatedAt < before` when `before` is non-zero, sorted by `CreatedAt`
descending; and when more matching records exist than are returned, every
returned record is at least as recent as every matching record left out. -/
theorem getTokensByProfileID_spec (db : Memory.DB) (p : String) (since before : Int) :
    (Memory.GetTokensByProfileID db p since before).length ≤ NumTokenResults ∧
    (∀ t ∈ Memory.GetTokensByProfileID db p since before,
      strLower t.ProfileID = strLower p ∧
      (before ≠ 0 → t.CreatedAt < before) ∧
      (since ≠ 0 → since < t.CreatedAt)) ∧
    (Memory.GetTokensByProfileID db p since before).Pairwise createdAtGe ∧
    (∀ t ∈ Memory.GetTokensByProfileID db p since before, ∀ u ∈ db,
      strLower u.ProfileID = strLower p →
      (before ≠ 0 → u.CreatedAt < before) →
      (since ≠ 0 → since < u.CreatedAt) →
      u ∉ Memory.GetTokensByProfileID db p since before →
      u.CreatedAt ≤ t.CreatedAt) := by
  have hunf : Memory.GetTokensByProfileID db p since before =
      (sortByCreatedAtDesc (db.filter (fun t =>
        strLower t.ProfileID == strLower p &&
        keepsBefore before t && keepsSince since t))).take NumTokenResults := rfl
  have hperm : List.Perm
      (sortByCreatedAtDesc (db.filter (fun t =>
        strLower t.ProfileID == strLower p &&
        keepsBefore before t && keepsSince since t)))
      (db.filter (fun t =>
        strLower t.ProfileID == strLower p &&
        keepsBefore before t && keepsSince since t)) :=
    List.perm_insertionSort createdAtGe _
  have hsorted : List.Pairwise createdAtGe
      (sortByCreatedAtDesc (db.filter (fun t =>
        strLower t.ProfileID == strLower p &&
        keepsBefore before t && keepsSince since t))) :=
    List.sorted_insertionSort createdAtGe _
  refine ⟨?_, ?_, ?_, ?_⟩
  · rw [hunf]
    exact List.length_take_le _ _
  · intro t ht
    rw [hunf] at ht
    have hts : t ∈ sortByCreatedAtDesc (db.filter (fun t =>
        strLower t.ProfileID == strLower p &&
        keepsBefore before t && keepsSince since t)) :=
      List.take_subset _ _ ht
    have htf := hperm.subset hts
    have hpred := (List.mem_filter.mp htf).2
    simp only [Bool.and_eq_true, beq_iff_eq] at hpred
    exact ⟨hpred.1.1, (keepsBefore_iff before t).mp hpred.1.2,
      (keepsSince_iff since t).mp hpred.2⟩
  · rw [hunf]
    exact hsorted.sublist (List.take_sublist _ _)
  · intro t ht u hu hup hub hus hunotin
    rw [hunf] at ht hunotin
    have hupred : (fun t : RefreshToken =>
        strLower t.ProfileID == strLower p &&
        keepsBefore before t && keepsSince since t) u = true := by
      simp only [Bool.and_eq_true, beq_iff_eq]
      exact ⟨⟨hup, (keepsBefore_iff before u).mpr hub⟩, (keepsSince_iff since u).mpr hus⟩
    have humem : u ∈ db.filter (fun t =>
        strLower t.ProfileID == strLower p &&
        keepsBefore before t && keepsSince since t) :=
      List.mem_filter.mpr ⟨hu, hupred⟩
    have husort := hperm.symm.subset humem
    have hsplit := List.take_append_drop NumTokenResults
      (sortByCreatedAtDesc (db.filter (fun t =>
        strLower t.ProfileID == strLower p &&
        keepsBefore before t && keepsSince since t)))
    rw [← hsplit] at husort
    have hudrop : u ∈ (sortByCreatedAtDesc (db.filter (fun t =>
        strLower t.ProfileID == strLower p &&
        keepsBefore before t && keepsSince since t))).drop NumTokenResults := by
      rcases List.mem_append.mp husort with h | h
      · exact absurd h hunotin
      · exact h
    have hpair := hsorted
    rw [← hsplit] at hpair
    exact (List.pairwise_append.mp hpair).2.2 t ht u hudrop

/-- Witness for `getTokensByProfileID_spec`: listing profile `p1` over a
three-token table returns its two tokens most recent first. -/
theorem getTokensByProfileID_spec_witness :
    (Memory.GetTokensByProfileID [tokA, tokB, tokC] "p1" 0 0).length ≤ NumTokenResults ∧
    ((Memory.GetTokensByProfileID [tokA, tokB, tokC] "p1" 0 0).Pairwise createdAtGe ∧
     Memory.GetTokensByProfileID [tokA, tokB, tokC] "p1" 0 0 = [tokB, tokA]) :=
  ⟨(getTokensByProfileID_spec [tokA, tokB, tokC] "p1" 0 0).1,
   (getTokensByProfileID_spec [tokA, tokB, tokC] "p1" 0 0).2.2.1,
   by decide⟩

/-- A successfully parsed token carries `jwt.MapClaims`: `jwt.Parse`
delegates to `ParseWithClaims` with a `MapClaims`, never a
`*jwt.StandardClaims`. -/
theorem jwtParse_claims {fp : String} {t : PresentedJWT} {tok : ParsedToken}
    (h : jwtParse fp t = .ok tok) :
    tok.claims = ParsedClaims.mapClaims t.claimId := by
  unfold jwtParse at h
  split_ifs at h
  all_goals try cases h
  all_goals rfl

/-- `Dependencies.Validate` returns `ErrInvalidToken` on every input: when
parsing fails it returns it directly, and when parsing succeeds the type
assertion `tok.Claims.(*jwt.StandardClaims)` fails because `jwt.Parse`
produced a `jwt.MapClaims`, so the `ok` branch returns it as well. -/
theorem validate_always_invalid (fp : String)
    (getToken : String → Except TokenErr RefreshToken) (jwtVal : PresentedJWT) :
    Validate fp getToken jwtVal = .error .invalidToken := by
  unfold Validate
  cases h : jwtParse fp jwtVal with
  | error e => rfl
  | ok tok =>
    have hc := jwtParse_claims h
    simp [hc]

/-- Claim C2 is refuted by the code: `Validate` never returns the stored
record (nor `ErrTokenRevoked`/`ErrTokenUsed`), because `jwt.Parse` in
jwt-go v3.2.0 produces a token whose `Claims` is a `jwt.MapClaims`, and
the type assertion to `*jwt.StandardClaims` in part_009 line 151 then
always fails, returning `ErrInvalidToken`.  At the concrete failing input
— a fully valid envelope naming the stored, unrevoked, unused record
`tokA` — the code yields `ErrInvalidToken` instead of the record. -/
theorem validate_never_returns_record :
    (∀ fp getToken jwtVal, Validate fp getToken jwtVal = .error .invalidToken) ∧
    Validate "SHA256:fp" (Memory.GetToken [tokA]) validEnvelope = .error .invalidToken ∧
    Memory.GetToken [tokA] validEnvelope.claimId = .ok tokA ∧
    tokA.Revoked = false ∧ tokA.Used = false ∧
    Validate "SHA256:fp" (Memory.GetToken [tokA]) validEnvelope ≠ .ok tokA :=
  ⟨validate_always_invalid,
   validate_always_invalid "SHA256:fp" (Memory.GetToken [tokA]) validEnvelope,
   rfl, rfl, rfl,
   fun hcontra => by
     rw [validate_always_invalid "SHA256:fp" (Memory.GetToken [tokA]) validEnvelope]
       at hcontra
     cases hcontra⟩

/-- Claim C4's propagation clause is refuted by the code: a storage error
other than `ErrTokenNotFound` never escapes `Validate`, because the
record lookup is unreachable (the `*jwt.StandardClaims` assertion fails
first), so `Validate` answers `ErrInvalidToken` where the claim requires
the storage error to propagate unchanged.  The `ErrInvalidToken`
rejection clauses of the claim do hold — every presented token yields
`ErrInvalidToken`. -/
theorem validate_swallows_storage_error :
    Validate "SHA256:fp" (fun _ => .error (.other "database failure")) validEnvelope =
      .error .invalidToken ∧
    TokenErr.other "database failure" ≠ TokenErr.invalidToken ∧
    Validate "SHA256:fp" (fun _ => .error (.other "database failure")) validEnvelope ≠
      .error (.other "database failure") :=
  ⟨validate_always_invalid "SHA256:fp" (fun _ => .error (.other "database failure"))
      validEnvelope,
   by decide,
   fun hcontra => by
     rw [validate_always_invalid "SHA256:fp"
       (fun _ => .error (.other "database failure")) validEnvelope] at hcontra
     simp at hcontra⟩
